import Mathlib

/-!
Verification of the Polymarket-Trading monitoring dashboard.

Shallow embedding of the refresh-and-score pipeline:
* `src/server/risk-scoring.ts` — factor tables and the risk scorer;
* `src/server/polymarket-storage.ts` — pagination and wallet admission;
* `src/server/routes.ts` — pagination query parsing;
* `src/server/polymarket-client.ts` — trade aggregation and the fetch cache.

JavaScript numbers are embedded as `ℚ` (the decimal literals in the source
are exact in ℚ, and every comparison the code performs is decidable there).
-/

namespace PolymarketTrading

/-! ## Risk scoring (`src/server/risk-scoring.ts`) -/

/-- One row of a factor table: the threshold bound and the points awarded. -/
structure Threshold where
  bound : ℚ
  points : ℚ
deriving Repr, DecidableEq

/-- `RISK_THRESHOLDS` from `risk-scoring.ts`. -/
structure RiskThresholds where
  LOW : ℚ
  MEDIUM : ℚ
  HIGH : ℚ
  CRITICAL : ℚ

def RISK_THRESHOLDS : RiskThresholds :=
  { LOW := 0, MEDIUM := 40, HIGH := 60, CRITICAL := 80 }

/-- `FACTOR_CONFIG.accountAge.thresholds`. -/
def accountAgeThresholds : List Threshold :=
  [⟨7, 20⟩, ⟨14, 15⟩, ⟨30, 8⟩]

/-- `FACTOR_CONFIG.winRate.thresholds`. -/
def winRateThresholds : List Threshold :=
  [⟨0.85, 20⟩, ⟨0.7, 15⟩, ⟨0.6, 8⟩]

/-- `FACTOR_CONFIG.portfolioConcentration.thresholds`. -/
def concentrationThresholds : List Threshold :=
  [⟨0.8, 20⟩, ⟨0.6, 15⟩, ⟨0.4, 8⟩]

/-- `FACTOR_CONFIG.timingProximity.thresholds`. -/
def timingThresholds : List Threshold :=
  [⟨24, 20⟩, ⟨48, 15⟩, ⟨72, 8⟩]

/-- `FACTOR_CONFIG.positionSize.thresholds`. -/
def positionSizeThresholds : List Threshold :=
  [⟨10000, 20⟩, ⟨2500, 15⟩, ⟨500, 8⟩]

/-- The `for … if … return threshold.points; … return 0` loop shared by all
five factor functions: the first threshold whose bound satisfies `hit` wins,
else 0. -/
def firstPoints (hit : ℚ → Bool) : List Threshold → ℚ
  | [] => 0
  | t :: rest => if hit t.bound then t.points else firstPoints hit rest

/-- `calculateAccountAgeScore`: compares `ageDays < threshold.days`. -/
def calculateAccountAgeScore (ageDays : ℚ) : ℚ :=
  firstPoints (fun b => decide (ageDays < b)) accountAgeThresholds

/-- `calculateWinRateScore`: compares `winRate > threshold.rate`. -/
def calculateWinRateScore (winRate : ℚ) : ℚ :=
  firstPoints (fun b => decide (winRate > b)) winRateThresholds

/-- `calculateConcentrationScore`: compares `concentration > threshold.concentration`. -/
def calculateConcentrationScore (concentration : ℚ) : ℚ :=
  firstPoints (fun b => decide (concentration > b)) concentrationThresholds

/-- `calculateTimingScore`: compares `avgHours < threshold.hours`. -/
def calculateTimingScore (avgHours : ℚ) : ℚ :=
  firstPoints (fun b => decide (avgHours < b)) timingThresholds

/-- `calculatePositionSizeScore`: compares `volume >= threshold.volume`. -/
def calculatePositionSizeScore (volume : ℚ) : ℚ :=
  firstPoints (fun b => decide (volume ≥ b)) positionSizeThresholds

/-- `Partial<WalletMetrics>`: every field of the `WalletMetrics` interface,
optionally absent (the source takes a `Partial` and fills defaults with `??`). -/
structure PartialWalletMetrics where
  accountAgeDays : Option ℚ
  winRate : Option ℚ
  portfolioConcentration : Option ℚ
  avgTimingProximity : Option ℚ
  totalVolume : Option ℚ

/-- `calculateRiskScore`: defaults for absent fields, sum of the five factor
scores, clamped by `Math.min(100, score)`. -/
def calculateRiskScore (metrics : PartialWalletMetrics) : ℚ :=
  let ageDays := metrics.accountAgeDays.getD 30
  let winRate := metrics.winRate.getD 0.5
  let concentration := metrics.portfolioConcentration.getD 0.3
  let timing := metrics.avgTimingProximity.getD 72
  let volume := metrics.totalVolume.getD 0
  let score :=
    calculateAccountAgeScore ageDays +
    calculateWinRateScore winRate +
    calculateConcentrationScore concentration +
    calculateTimingScore timing +
    calculatePositionSizeScore volume
  min 100 score

/-- `getRiskLevel`. -/
def getRiskLevel (score : ℚ) : String :=
  if score ≥ RISK_THRESHOLDS.CRITICAL then "critical"
  else if score ≥ RISK_THRESHOLDS.HIGH then "high"
  else if score ≥ RISK_THRESHOLDS.MEDIUM then "medium"
  else "low"

/-- `shouldFlagWallet`. -/
def shouldFlagWallet (riskScore : ℚ) : Bool :=
  decide (riskScore ≥ RISK_THRESHOLDS.MEDIUM)

/-! ### Closed forms of the factor functions (helper lemmas) -/

lemma calculateAccountAgeScore_eq (x : ℚ) :
    calculateAccountAgeScore x =
      if x < 7 then 20 else if x < 14 then 15 else if x < 30 then 8 else 0 := by
  simp [calculateAccountAgeScore, accountAgeThresholds, firstPoints]

lemma calculateWinRateScore_eq (x : ℚ) :
    calculateWinRateScore x =
      if x > 0.85 then 20 else if x > 0.7 then 15 else if x > 0.6 then 8 else 0 := by
  simp [calculateWinRateScore, winRateThresholds, firstPoints]

lemma calculateConcentrationScore_eq (x : ℚ) :
    calculateConcentrationScore x =
      if x > 0.8 then 20 else if x > 0.6 then 15 else if x > 0.4 then 8 else 0 := by
  simp [calculateConcentrationScore, concentrationThresholds, firstPoints]

lemma calculateTimingScore_eq (x : ℚ) :
    calculateTimingScore x =
      if x < 24 then 20 else if x < 48 then 15 else if x < 72 then 8 else 0 := by
  simp [calculateTimingScore, timingThresholds, firstPoints]

lemma calculatePositionSizeScore_eq (x : ℚ) :
    calculatePositionSizeScore x =
      if x ≥ 10000 then 20 else if x ≥ 2500 then 15 else if x ≥ 500 then 8 else 0 := by
  simp [calculatePositionSizeScore, positionSizeThresholds, firstPoints]

lemma calculateAccountAgeScore_mem (x : ℚ) :
    0 ≤ calculateAccountAgeScore x ∧ calculateAccountAgeScore x ≤ 20 := by
  rw [calculateAccountAgeScore_eq]; split_ifs <;> norm_num

lemma calculateWinRateScore_mem (x : ℚ) :
    0 ≤ calculateWinRateScore x ∧ calculateWinRateScore x ≤ 20 := by
  rw [calculateWinRateScore_eq]; split_ifs <;> norm_num

lemma calculateConcentrationScore_mem (x : ℚ) :
    0 ≤ calculateConcentrationScore x ∧ calculateConcentrationScore x ≤ 20 := by
  rw [calculateConcentrationScore_eq]; split_ifs <;> norm_num

lemma calculateTimingScore_mem (x : ℚ) :
    0 ≤ calculateTimingScore x ∧ calculateTimingScore x ≤ 20 := by
  rw [calculateTimingScore_eq]; split_ifs <;> norm_num

lemma calculatePositionSizeScore_mem (x : ℚ) :
    0 ≤ calculatePositionSizeScore x ∧ calculatePositionSizeScore x ≤ 20 := by
  rw [calculatePositionSizeScore_eq]; split_ifs <;> norm_num

/-! ## Pagination (`storage-interface.ts`, `polymarket-storage.ts`, `routes.ts`) -/

/-- `DEFAULT_PAGINATION` from `storage-interface.ts`. -/
structure DefaultPagination where
  limit : ℤ
  offset : ℤ
  maxLimit : ℤ

def DEFAULT_PAGINATION : DefaultPagination :=
  { limit := 50, offset := 0, maxLimit := 200 }

/-- `PaginationOptions`: both fields optional in the source interface. -/
structure PaginationOptions where
  limit : Option ℤ
  offset : Option ℤ

/-- `PaginatedResult<T>`. -/
structure PaginatedResult (α : Type) where
  data : List α
  total : ℤ
  limit : ℤ
  offset : ℤ
  hasMore : Bool

/-- JavaScript `Array.prototype.slice` index resolution: a negative index
counts from the end, and both are clamped into `[0, length]`. -/
def jsSliceBound (len : ℕ) (i : ℤ) : ℕ :=
  if i < 0 then ((len : ℤ) + i).toNat else min i.toNat len

/-- JavaScript `xs.slice(start, stop)`. -/
def jsSlice {α : Type} (xs : List α) (start stop : ℤ) : List α :=
  (xs.take (jsSliceBound xs.length stop)).drop (jsSliceBound xs.length start)

/-- `paginate` from `polymarket-storage.ts`: `limit` is
`Math.min(options?.limit ?? 50, 200)`, `offset` is `options?.offset ?? 0`,
`data` is `items.slice(offset, offset + limit)` and
`hasMore` is `offset + data.length < total`. -/
def paginate {α : Type} (items : List α) (options : Option PaginationOptions) :
    PaginatedResult α :=
  let limit := min ((options.bind PaginationOptions.limit).getD DEFAULT_PAGINATION.limit)
    DEFAULT_PAGINATION.maxLimit
  let offset := (options.bind PaginationOptions.offset).getD DEFAULT_PAGINATION.offset
  let total : ℤ := items.length
  let data := jsSlice items offset (offset + limit)
  { data := data
    total := total
    limit := limit
    offset := offset
    hasMore := decide (offset + (data.length : ℤ) < total) }

/-- `parsePagination` from `routes.ts`. A query parameter is embedded as
`Option (Option ℤ)`: `none` when the parameter is absent (or empty, i.e.
falsy), `some none` when `parseInt` returns `NaN`, `some (some n)` when it
parses to `n`. The source keeps `Math.min(limit, maxLimit)` for numeric
limits and `Math.max(0, offset)` for numeric offsets, with the defaults for
`NaN`. -/
def parsePagination (limitQ offsetQ : Option (Option ℤ)) : PaginationOptions :=
  let limit : Option ℤ :=
    match limitQ with
    | none => some DEFAULT_PAGINATION.limit
    | some v => v
  let offset : Option ℤ :=
    match offsetQ with
    | none => some DEFAULT_PAGINATION.offset
    | some v => v
  { limit := some (match limit with
      | none => DEFAULT_PAGINATION.limit
      | some l => min l DEFAULT_PAGINATION.maxLimit)
    offset := some (match offset with
      | none => DEFAULT_PAGINATION.offset
      | some o => max 0 o) }

/-- The route handler composition: parse the query, then paginate the listing. -/
def routePaginate {α : Type} (items : List α) (limitQ offsetQ : Option (Option ℤ)) :
    PaginatedResult α :=
  paginate items (some (parsePagination limitQ offsetQ))

lemma jsSliceBound_le (len : ℕ) (i : ℤ) : jsSliceBound len i ≤ len := by
  unfold jsSliceBound
  split_ifs <;> omega

lemma jsSlice_length {α : Type} (xs : List α) (s e : ℤ) :
    (jsSlice xs s e).length = jsSliceBound xs.length e - jsSliceBound xs.length s := by
  have he := jsSliceBound_le xs.length e
  simp only [jsSlice, List.length_drop, List.length_take]
  omega

/-! ## Trade aggregation (`polymarket-client.ts`, `analyzeWalletTrades`) -/

/-- `side: "BUY" | "SELL"`. -/
inductive TradeSide where
  | BUY : TradeSide
  | SELL : TradeSide
deriving DecidableEq, Repr

/-- The fields of `PolymarketTrade` the pipeline reads. `timestamp` is in
seconds; an empty `proxyWallet` stands for a falsy (absent) wallet. -/
structure PolymarketTrade where
  proxyWallet : String
  side : TradeSide
  conditionId : String
  size : ℚ
  price : ℚ
  timestamp : ℚ
deriving DecidableEq, Repr

/-- The record returned by `analyzeWalletTrades` (the `uniqueMarkets` set is
kept as the map's insertion-ordered key list). -/
structure WalletAnalysis where
  winRate : ℚ
  totalBets : ℕ
  totalVolume : ℚ
  marketConcentration : ℚ
  avgTimingHours : ℚ
  uniqueMarkets : List String
deriving DecidableEq, Repr

/-- JS `Map.get(k) ?? d`: first matching key (keys stay unique). -/
def mapGetD {β : Type} : List (String × β) → String → β → β
  | [], _, d => d
  | p :: rest, k, d => if p.1 = k then p.2 else mapGetD rest k d

/-- JS `Map.set(k, v)`: update in place, else append (insertion order). -/
def mapSet {β : Type} : List (String × β) → String → β → List (String × β)
  | [], k, v => [(k, v)]
  | p :: rest, k, v => if p.1 = k then (k, v) :: rest else p :: mapSet rest k v

/-- JS `Math.max(...xs)` over a non-empty array (`0` for the empty one,
which the source never hits). -/
def listMax : List ℚ → ℚ
  | [] => 0
  | x :: xs => xs.foldl max x

/-- JS `Math.min(...xs)` over a non-empty array. -/
def listMin : List ℚ → ℚ
  | [] => 0
  | x :: xs => xs.foldl min x

/-- The win heuristic: a SELL above price 0.5 or a BUY below price 0.5. -/
def isWin (t : PolymarketTrade) : Bool :=
  (t.side == TradeSide.SELL && decide (t.price > 0.5)) ||
  (t.side == TradeSide.BUY && decide (t.price < 0.5))

/-- The `for (const trade of trades)` loop: accumulates the per-market
volume map, the total volume and the win count. -/
def analyzeLoop : List PolymarketTrade → List (String × ℚ) × ℚ × ℕ →
    List (String × ℚ) × ℚ × ℕ
  | [], acc => acc
  | t :: rest, (mv, tv, w) =>
    let volume := t.size * t.price
    let mv' := mapSet mv t.conditionId (mapGetD mv t.conditionId 0 + volume)
    let w' := if isWin t then w + 1 else w
    analyzeLoop rest (mv', tv + volume, w')

/-- `analyzeWalletTrades` from `polymarket-client.ts`; `now` is the
`Date.now()` millisecond clock at analysis time. -/
def analyzeWalletTrades (now : ℚ) (trades : List PolymarketTrade) : WalletAnalysis :=
  if trades.isEmpty then
    { winRate := 0
      totalBets := 0
      totalVolume := 0
      marketConcentration := 0
      avgTimingHours := 72
      uniqueMarkets := [] }
  else
    let res := analyzeLoop trades ([], 0, 0)
    let marketVolumes := res.1
    let totalVolume := res.2.1
    let wins := res.2.2
    let totalTrades := trades.length
    let maxMarketVolume := listMax (marketVolumes.map Prod.snd)
    let marketConcentration := if totalVolume > 0 then maxMarketVolume / totalVolume else 0
    let avgTradeAge := ((trades.map (fun t => now - t.timestamp * 1000)).sum) / totalTrades
    let avgTimingHours := min 168 (avgTradeAge / (1000 * 60 * 60))
    { winRate := if totalTrades > 0 then (wins : ℚ) / (totalTrades : ℚ) else 0
      totalBets := totalTrades
      totalVolume := totalVolume
      marketConcentration := marketConcentration
      avgTimingHours := avgTimingHours
      uniqueMarkets := marketVolumes.map Prod.fst }

/-- Specification-side per-market volume: group the trades by market and sum
`size * price`. -/
def marketVolume (trades : List PolymarketTrade) (m : String) : ℚ :=
  ((trades.filter (fun t => t.conditionId == m)).map (fun t => t.size * t.price)).sum

/-! ## Claims C1–C4 -/

/-- C1: each of the five factor-score functions implements its
descending-threshold table with first-matching-threshold-wins, else 0
(account age `<7→20, <14→15, <30→8`; win rate `>0.85→20, >0.7→15, >0.6→8`;
concentration `>0.8→20, >0.6→15, >0.4→8`; timing `<24→20, <48→15, <72→8`;
position size `≥10000→20, ≥2500→15, ≥500→8`), and in particular at
the boundaries `calculateAccountAgeScore 6 = 20`, `7 ↦ 15`, `30 ↦ 0`,
and analogously at every documented cutoff of every factor. -/
theorem C1_factor_tables :
    (∀ x : ℚ, calculateAccountAgeScore x =
      if x < 7 then 20 else if x < 14 then 15 else if x < 30 then 8 else 0) ∧
    (∀ x : ℚ, calculateWinRateScore x =
      if x > 0.85 then 20 else if x > 0.7 then 15 else if x > 0.6 then 8 else 0) ∧
    (∀ x : ℚ, calculateConcentrationScore x =
      if x > 0.8 then 20 else if x > 0.6 then 15 else if x > 0.4 then 8 else 0) ∧
    (∀ x : ℚ, calculateTimingScore x =
      if x < 24 then 20 else if x < 48 then 15 else if x < 72 then 8 else 0) ∧
    (∀ x : ℚ, calculatePositionSizeScore x =
      if x ≥ 10000 then 20 else if x ≥ 2500 then 15 else if x ≥ 500 then 8 else 0) ∧
    (calculateAccountAgeScore 6 = 20 ∧ calculateAccountAgeScore 7 = 15 ∧
     calculateAccountAgeScore 13 = 15 ∧ calculateAccountAgeScore 14 = 8 ∧
     calculateAccountAgeScore 29 = 8 ∧ calculateAccountAgeScore 30 = 0) ∧
    (calculateWinRateScore 0.85 = 15 ∧ calculateWinRateScore 0.86 = 20 ∧
     calculateWinRateScore 0.7 = 8 ∧ calculateWinRateScore 0.71 = 15 ∧
     calculateWinRateScore 0.6 = 0 ∧ calculateWinRateScore 0.61 = 8) ∧
    (calculateConcentrationScore 0.8 = 15 ∧ calculateConcentrationScore 0.81 = 20 ∧
     calculateConcentrationScore 0.6 = 8 ∧ calculateConcentrationScore 0.61 = 15 ∧
     calculateConcentrationScore 0.4 = 0 ∧ calculateConcentrationScore 0.41 = 8) ∧
    (calculateTimingScore 23 = 20 ∧ calculateTimingScore 24 = 15 ∧
     calculateTimingScore 47 = 15 ∧ calculateTimingScore 48 = 8 ∧
     calculateTimingScore 71 = 8 ∧ calculateTimingScore 72 = 0) ∧
    (calculatePositionSizeScore 10000 = 20 ∧ calculatePositionSizeScore 9999 = 15 ∧
     calculatePositionSizeScore 2500 = 15 ∧ calculatePositionSizeScore 2499 = 8 ∧
     calculatePositionSizeScore 500 = 8 ∧ calculatePositionSizeScore 499 = 0) := by
  refine ⟨calculateAccountAgeScore_eq, calculateWinRateScore_eq,
    calculateConcentrationScore_eq, calculateTimingScore_eq,
    calculatePositionSizeScore_eq, ?_, ?_, ?_, ?_, ?_⟩ <;>
    refine ⟨?_, ?_, ?_, ?_, ?_, ?_⟩ <;>
    norm_num [calculateAccountAgeScore_eq, calculateWinRateScore_eq,
      calculateConcentrationScore_eq, calculateTimingScore_eq,
      calculatePositionSizeScore_eq]

/-- C2: for every metrics record, `calculateRiskScore` equals the sum of the
five individual factor scores (at the defaulted field values) clamped to 100,
and therefore always lies in `[0, 100]`. -/
theorem C2_riskScore_bounded (metrics : PartialWalletMetrics) :
    calculateRiskScore metrics =
      min 100
        (calculateAccountAgeScore (metrics.accountAgeDays.getD 30) +
         calculateWinRateScore (metrics.winRate.getD 0.5) +
         calculateConcentrationScore (metrics.portfolioConcentration.getD 0.3) +
         calculateTimingScore (metrics.avgTimingProximity.getD 72) +
         calculatePositionSizeScore (metrics.totalVolume.getD 0)) ∧
    0 ≤ calculateRiskScore metrics ∧ calculateRiskScore metrics ≤ 100 := by
  refine ⟨rfl, ?_, ?_⟩
  · have h1 := calculateAccountAgeScore_mem (metrics.accountAgeDays.getD 30)
    have h2 := calculateWinRateScore_mem (metrics.winRate.getD 0.5)
    have h3 := calculateConcentrationScore_mem (metrics.portfolioConcentration.getD 0.3)
    have h4 := calculateTimingScore_mem (metrics.avgTimingProximity.getD 72)
    have h5 := calculatePositionSizeScore_mem (metrics.totalVolume.getD 0)
    unfold calculateRiskScore
    simp only [le_min_iff]
    constructor
    · norm_num
    · linarith [h1.1, h2.1, h3.1, h4.1, h5.1]
  · unfold calculateRiskScore
    exact min_le_left _ _

/-- C3: for every integer `s`, `shouldFlagWallet s = true` iff `s ≥ 40`, and
`getRiskLevel` buckets: `"low"` for `s < 40`, `"medium"` for `40 ≤ s < 60`,
`"high"` for `60 ≤ s < 80`, `"critical"` for `s ≥ 80`. -/
theorem C3_flag_and_level (s : ℤ) :
    (shouldFlagWallet (s : ℚ) = true ↔ (40 : ℚ) ≤ (s : ℚ)) ∧
    ((s : ℚ) < 40 → getRiskLevel (s : ℚ) = "low") ∧
    ((40 : ℚ) ≤ (s : ℚ) → (s : ℚ) < 60 → getRiskLevel (s : ℚ) = "medium") ∧
    ((60 : ℚ) ≤ (s : ℚ) → (s : ℚ) < 80 → getRiskLevel (s : ℚ) = "high") ∧
    ((80 : ℚ) ≤ (s : ℚ) → getRiskLevel (s : ℚ) = "critical") := by
  have hm : RISK_THRESHOLDS.MEDIUM = 40 := rfl
  have hh : RISK_THRESHOLDS.HIGH = 60 := rfl
  have hc : RISK_THRESHOLDS.CRITICAL = 80 := rfl
  unfold shouldFlagWallet getRiskLevel
  simp only [hm, hh, hc]
  refine ⟨by simp [ge_iff_le], ?_, ?_, ?_, ?_⟩ <;> intros <;> split_ifs <;>
    first | rfl | (exfalso; linarith)

/-- C3 witness: score 50 is flagged and bucketed `"medium"`. -/
theorem C3_flag_and_level_witness :
    shouldFlagWallet ((50 : ℤ) : ℚ) = true ∧ getRiskLevel ((50 : ℤ) : ℚ) = "medium" :=
  ⟨(C3_flag_and_level 50).1.mpr (by norm_num),
   (C3_flag_and_level 50).2.2.1 (by norm_num) (by norm_num)⟩

/-- C4: each factor sub-score is monotone in the risk-increasing direction:
for `x ≤ y`, account-age and timing scores at `x` dominate those at `y`,
and win-rate, concentration and position-size scores at `y` dominate
those at `x`. -/
theorem C4_factor_monotone (x y : ℚ) (h : x ≤ y) :
    calculateAccountAgeScore y ≤ calculateAccountAgeScore x ∧
    calculateWinRateScore x ≤ calculateWinRateScore y ∧
    calculateConcentrationScore x ≤ calculateConcentrationScore y ∧
    calculateTimingScore y ≤ calculateTimingScore x ∧
    calculatePositionSizeScore x ≤ calculatePositionSizeScore y := by
  refine ⟨?_, ?_, ?_, ?_, ?_⟩ <;>
    simp only [calculateAccountAgeScore_eq, calculateWinRateScore_eq,
      calculateConcentrationScore_eq, calculateTimingScore_eq,
      calculatePositionSizeScore_eq] <;>
    split_ifs <;> norm_num <;> linarith

/-- C4 witness: instantiated at `x = 6`, `y = 20`. -/
theorem C4_factor_monotone_witness :
    calculateAccountAgeScore 20 ≤ calculateAccountAgeScore 6 ∧
    calculateWinRateScore 6 ≤ calculateWinRateScore 20 :=
  ⟨(C4_factor_monotone 6 20 (by norm_num)).1, (C4_factor_monotone 6 20 (by norm_num)).2.1⟩

/-! ## Claim C5 -/

lemma jsSlice_length_spec {α : Type} (xs : List α) (o l : ℤ) (ho : 0 ≤ o) (hl : 0 ≤ l) :
    ((jsSlice xs o (o + l)).length : ℤ) = min l (max 0 ((xs.length : ℤ) - o)) := by
  rw [jsSlice_length]
  unfold jsSliceBound
  split_ifs <;> omega

/-- The effective limit a route request ends up with after `parsePagination`
and `paginate` (the two `Math.min` clamps collapse to one). -/
def parsedLimit : Option (Option ℤ) → ℤ
  | some (some l) => min l 200
  | _ => 50

/-- The effective offset a route request ends up with. -/
def parsedOffset : Option (Option ℤ) → ℤ
  | some (some o) => max 0 o
  | _ => 0

lemma min_clamp (l : ℤ) : min (min l 200) 200 = min l 200 := by omega

lemma routePaginate_def {α : Type} (items : List α) (lq oq : Option (Option ℤ)) :
    routePaginate items lq oq =
      { data := jsSlice items (parsedOffset oq) (parsedOffset oq + parsedLimit lq)
        total := items.length
        limit := parsedLimit lq
        offset := parsedOffset oq
        hasMore := decide (parsedOffset oq +
          ((jsSlice items (parsedOffset oq) (parsedOffset oq + parsedLimit lq)).length : ℤ) <
          (items.length : ℤ)) } := by
  rcases lq with _ | (_ | l) <;> rcases oq with _ | (_ | o) <;>
    simp [routePaginate, parsePagination, paginate, parsedLimit, parsedOffset,
      DEFAULT_PAGINATION, min_clamp]

lemma parsedLimit_le (lq : Option (Option ℤ)) : parsedLimit lq ≤ 200 := by
  rcases lq with _ | (_ | l) <;> simp [parsedLimit]

lemma parsedOffset_nonneg (oq : Option (Option ℤ)) : 0 ≤ parsedOffset oq := by
  rcases oq with _ | (_ | o) <;> simp [parsedOffset]

/-- C5 counterexample: the claim says the effective limit is clamped
server-side to `[1, 200]`, but a numeric query `limit=0` passes through
unclamped: the served envelope reports `limit = 0`, outside `[1, 200]`. -/
theorem C5_pagination_counterexample :
    (routePaginate ([0, 1, 2, 3, 4] : List ℕ) (some (some 0)) none).limit = 0 ∧
    ¬(1 ≤ (routePaginate ([0, 1, 2, 3, 4] : List ℕ) (some (some 0)) none).limit) := by
  constructor <;> decide

/-- C5 amended: the parsed limit is clamped above to 200 (there is no lower
clamp, so 0 or negative numeric limits pass through), the parsed offset is
clamped to `≥ 0`, non-numeric inputs fall back to the defaults
(`limit = 50`, `offset = 0`) rather than erroring, and whenever the
effective limit is non-negative the envelope satisfies
`data.length = min(limit, max(0, N - offset))` and
`hasMore = (offset + data.length < N)`. -/
theorem C5_pagination_amended {α : Type} (items : List α)
    (limitQ offsetQ : Option (Option ℤ)) :
    (routePaginate items limitQ offsetQ).limit ≤ 200 ∧
    0 ≤ (routePaginate items limitQ offsetQ).offset ∧
    (limitQ = some none → (routePaginate items limitQ offsetQ).limit = 50) ∧
    (offsetQ = some none → (routePaginate items limitQ offsetQ).offset = 0) ∧
    (0 ≤ (routePaginate items limitQ offsetQ).limit →
      ((routePaginate items limitQ offsetQ).data.length : ℤ) =
        min (routePaginate items limitQ offsetQ).limit
          (max 0 ((items.length : ℤ) - (routePaginate items limitQ offsetQ).offset))) ∧
    (routePaginate items limitQ offsetQ).hasMore =
      decide ((routePaginate items limitQ offsetQ).offset +
        ((routePaginate items limitQ offsetQ).data.length : ℤ) < (items.length : ℤ)) := by
  rw [routePaginate_def]
  refine ⟨parsedLimit_le limitQ, parsedOffset_nonneg offsetQ, ?_, ?_, fun h => ?_, rfl⟩
  · intro hq; subst hq; rfl
  · intro hq; subst hq; rfl
  · exact jsSlice_length_spec items (parsedOffset offsetQ) (parsedLimit limitQ)
      (parsedOffset_nonneg offsetQ) h

/-- C5 witness: amended claim instantiated at a 5-item list with
`limit=2`, `offset=1`: `data.length = 2`. -/
theorem C5_pagination_amended_witness :
    ((routePaginate ([10, 11, 12, 13, 14] : List ℕ) (some (some 2)) (some (some 1))).data.length : ℤ) =
      min (routePaginate ([10, 11, 12, 13, 14] : List ℕ) (some (some 2)) (some (some 1))).limit
        (max 0 ((([10, 11, 12, 13, 14] : List ℕ).length : ℤ) -
          (routePaginate ([10, 11, 12, 13, 14] : List ℕ) (some (some 2)) (some (some 1))).offset)) :=
  (C5_pagination_amended ([10, 11, 12, 13, 14] : List ℕ)
    (some (some 2)) (some (some 1))).2.2.2.2.1 (by decide)

/-! ## Claim C6 -/

/-- C6: the aggregator on an empty trade list returns exactly the neutral
default record: `winRate = 0`, `totalBets = 0`, `totalVolume = 0`,
`marketConcentration = 0` and `avgTimingHours = 72` (72, not 0). -/
theorem C6_empty_trades (now : ℚ) :
    (analyzeWalletTrades now []).winRate = 0 ∧
    (analyzeWalletTrades now []).totalBets = 0 ∧
    (analyzeWalletTrades now []).totalVolume = 0 ∧
    (analyzeWalletTrades now []).marketConcentration = 0 ∧
    (analyzeWalletTrades now []).avgTimingHours = 72 ∧
    (analyzeWalletTrades now []).uniqueMarkets = [] :=
  ⟨rfl, rfl, rfl, rfl, rfl, rfl⟩

/-! ## Claim C7: association-map and fold lemmas -/

lemma mapGetD_mapSet_self {β : Type} (m : List (String × β)) (k : String) (v d : β) :
    mapGetD (mapSet m k v) k d = v := by
  induction m with
  | nil => simp [mapSet, mapGetD]
  | cons p rest ih =>
    by_cases h : p.1 = k <;> simp [mapSet, mapGetD, h, ih]

lemma mapGetD_mapSet_ne {β : Type} (m : List (String × β)) {k c : String} (h : k ≠ c)
    (v d : β) : mapGetD (mapSet m c v) k d = mapGetD m k d := by
  induction m with
  | nil =>
    simp only [mapSet, mapGetD]
    rw [if_neg (Ne.symm h)]
  | cons p rest ih =>
    by_cases hp : p.1 = c
    · subst hp
      simp only [mapSet, if_pos rfl, mapGetD]
      rw [if_neg (Ne.symm h), if_neg (Ne.symm h)]
    · simp [mapSet, mapGetD, hp, ih]

lemma keys_mapSet {β : Type} (m : List (String × β)) (k : String) (v : β) :
    (mapSet m k v).map Prod.fst =
      if k ∈ m.map Prod.fst then m.map Prod.fst else m.map Prod.fst ++ [k] := by
  induction m with
  | nil => simp [mapSet]
  | cons p rest ih =>
    by_cases h : p.1 = k
    · simp [mapSet, h]
    · have hne : ¬ k = p.1 := fun hc => h hc.symm
      simp only [mapSet, if_neg h, List.map_cons, List.mem_cons, hne, false_or, ih]
      split_ifs <;> simp

lemma mem_keys_mapSet {β : Type} (m : List (String × β)) (k c : String) (v : β) :
    k ∈ (mapSet m c v).map Prod.fst ↔ k ∈ m.map Prod.fst ∨ k = c := by
  rw [keys_mapSet]
  split_ifs with h
  · constructor
    · exact Or.inl
    · rintro (hk | rfl)
      · exact hk
      · exact h
  · simp

lemma keys_mapSet_nodup {β : Type} (m : List (String × β)) (k : String) (v : β)
    (h : (m.map Prod.fst).Nodup) : ((mapSet m k v).map Prod.fst).Nodup := by
  rw [keys_mapSet]
  split_ifs with hk
  · exact h
  · simp [List.nodup_append, h, hk]

lemma mapGetD_of_mem {β : Type} {m : List (String × β)}
    (hnd : (m.map Prod.fst).Nodup) {p : String × β} (hp : p ∈ m) (d : β) :
    mapGetD m p.1 d = p.2 := by
  induction m with
  | nil => cases hp
  | cons q rest ih =>
    rcases List.mem_cons.mp hp with rfl | hp'
    · simp [mapGetD]
    · have hq : q.1 ≠ p.1 := by
        intro hc
        have : p.1 ∈ rest.map Prod.fst := List.mem_map.mpr ⟨p, hp', rfl⟩
        rw [List.map_cons, List.nodup_cons] at hnd
        exact hnd.1 (hc ▸ this)
      rw [List.map_cons, List.nodup_cons] at hnd
      simp [mapGetD, hq, ih hnd.2 hp']

lemma marketVolume_cons (t : PolymarketTrade) (ts : List PolymarketTrade) (k : String) :
    marketVolume (t :: ts) k =
      (if t.conditionId = k then t.size * t.price else 0) + marketVolume ts k := by
  by_cases h : t.conditionId = k <;> simp [marketVolume, h]

lemma analyzeLoop_snd (ts : List PolymarketTrade) (mv : List (String × ℚ)) (tv : ℚ) (w : ℕ) :
    (analyzeLoop ts (mv, tv, w)).2.1 = tv + ((ts.map (fun t => t.size * t.price)).sum) ∧
    (analyzeLoop ts (mv, tv, w)).2.2 = w + ts.countP isWin := by
  induction ts generalizing mv tv w with
  | nil => simp [analyzeLoop]
  | cons t rest ih =>
    simp only [analyzeLoop, List.map_cons, List.sum_cons, List.countP_cons]
    refine ⟨((ih _ _ _).1).trans (by ring), ((ih _ _ _).2).trans ?_⟩
    by_cases h : isWin t
    · simp [h]
      omega
    · simp [h]

lemma analyzeLoop_getD (ts : List PolymarketTrade) (mv : List (String × ℚ)) (tv : ℚ)
    (w : ℕ) (k : String) :
    mapGetD (analyzeLoop ts (mv, tv, w)).1 k 0 = mapGetD mv k 0 + marketVolume ts k := by
  induction ts generalizing mv tv w with
  | nil => simp [analyzeLoop, marketVolume]
  | cons t rest ih =>
    simp only [analyzeLoop]
    rw [ih, marketVolume_cons]
    by_cases h : t.conditionId = k
    · subst h
      rw [mapGetD_mapSet_self]
      simp only [if_pos trivial, if_true, eq_self_iff_true]
      ring
    · rw [mapGetD_mapSet_ne _ (fun hc => h hc.symm)]
      simp [h]

lemma analyzeLoop_keys_nodup (ts : List PolymarketTrade) (mv : List (String × ℚ))
    (tv : ℚ) (w : ℕ) (h : (mv.map Prod.fst).Nodup) :
    ((analyzeLoop ts (mv, tv, w)).1.map Prod.fst).Nodup := by
  induction ts generalizing mv tv w with
  | nil => exact h
  | cons t rest ih =>
    simp only [analyzeLoop]
    exact ih _ _ _ (keys_mapSet_nodup _ _ _ h)

lemma analyzeLoop_keys_mem (ts : List PolymarketTrade) (mv : List (String × ℚ))
    (tv : ℚ) (w : ℕ) (k : String) :
    k ∈ (analyzeLoop ts (mv, tv, w)).1.map Prod.fst ↔
      k ∈ mv.map Prod.fst ∨ k ∈ ts.map PolymarketTrade.conditionId := by
  induction ts generalizing mv tv w with
  | nil => simp [analyzeLoop]
  | cons t rest ih =>
    simp only [analyzeLoop, ih, mem_keys_mapSet, List.map_cons, List.mem_cons]
    tauto

lemma le_foldl_max (l : List ℚ) (a : ℚ) : a ≤ l.foldl max a := by
  induction l generalizing a with
  | nil => simp
  | cons y ys ih => exact le_trans (le_max_left a y) (ih (max a y))

lemma mem_le_foldl_max (l : List ℚ) (a : ℚ) {x : ℚ} (hx : x ∈ l) : x ≤ l.foldl max a := by
  induction l generalizing a with
  | nil => cases hx
  | cons y ys ih =>
    rw [List.foldl_cons]
    rcases List.mem_cons.mp hx with rfl | hx'
    · exact le_trans (le_max_right a x) (le_foldl_max ys (max a x))
    · exact ih (max a y) hx'

lemma le_listMax {l : List ℚ} {x : ℚ} (hx : x ∈ l) : x ≤ listMax l := by
  cases l with
  | nil => cases hx
  | cons y ys =>
    rcases List.mem_cons.mp hx with rfl | hx'
    · exact le_foldl_max ys x
    · exact mem_le_foldl_max ys y hx'

lemma foldl_max_mem (l : List ℚ) (a : ℚ) : l.foldl max a = a ∨ l.foldl max a ∈ l := by
  induction l generalizing a with
  | nil => exact Or.inl rfl
  | cons y ys ih =>
    rcases ih (max a y) with h | h
    · rcases max_choice a y with hm | hm
      · exact Or.inl (by rw [List.foldl_cons, h, hm])
      · exact Or.inr (by rw [List.foldl_cons, h, hm]; exact List.mem_cons_self _ _)
    · exact Or.inr (List.mem_cons_of_mem _ h)

lemma listMax_mem {l : List ℚ} (h : l ≠ []) : listMax l ∈ l := by
  cases l with
  | nil => exact absurd rfl h
  | cons y ys =>
    show ys.foldl max y ∈ y :: ys
    rcases foldl_max_mem ys y with hm | hm
    · rw [hm]
      exact List.mem_cons_self _ _
    · exact List.mem_cons_of_mem _ hm

lemma analyze_maxVolumes (trades : List PolymarketTrade) (hne : trades ≠ []) :
    listMax ((analyzeLoop trades ([], 0, 0)).1.map Prod.snd) =
      listMax ((trades.map PolymarketTrade.conditionId).map (marketVolume trades)) := by
  set M := (analyzeLoop trades ([], 0, 0)).1 with hM
  have hnd : (M.map Prod.fst).Nodup := analyzeLoop_keys_nodup trades [] 0 0 (by simp)
  have hkeys : ∀ k, k ∈ M.map Prod.fst ↔ k ∈ trades.map PolymarketTrade.conditionId := by
    intro k
    rw [hM, analyzeLoop_keys_mem]
    simp
  have hget : ∀ k, mapGetD M k 0 = marketVolume trades k := by
    intro k
    rw [hM, analyzeLoop_getD]
    simp [mapGetD]
  have hMne : M ≠ [] := by
    cases htr : trades with
    | nil => exact absurd htr hne
    | cons t ts =>
      intro hnil
      have : t.conditionId ∈ M.map Prod.fst := by
        rw [hkeys, htr]
        simp
      rw [hnil] at this
      cases this
  apply le_antisymm
  · have hmem := listMax_mem (l := M.map Prod.snd) (by simpa using hMne)
    obtain ⟨p, hp, hpv⟩ := List.mem_map.mp hmem
    have hval : p.2 = marketVolume trades p.1 := by
      rw [← mapGetD_of_mem hnd hp 0, hget]
    have hk : p.1 ∈ trades.map PolymarketTrade.conditionId :=
      (hkeys p.1).mp (List.mem_map.mpr ⟨p, hp, rfl⟩)
    rw [← hpv, hval]
    exact le_listMax (List.mem_map.mpr ⟨p.1, hk, rfl⟩)
  · have hTne : (trades.map PolymarketTrade.conditionId).map (marketVolume trades) ≠ [] := by
      cases trades with
      | nil => exact absurd rfl hne
      | cons t ts => simp
    have hmem := listMax_mem hTne
    obtain ⟨k, hk, hkv⟩ := List.mem_map.mp hmem
    have hkM : k ∈ M.map Prod.fst := (hkeys k).mpr hk
    obtain ⟨p, hp, hpk⟩ := List.mem_map.mp hkM
    have hval : p.2 = marketVolume trades k := by
      rw [← hpk, ← mapGetD_of_mem hnd hp 0, hget]
    rw [← hkv, ← hval]
    exact le_listMax (List.mem_map.mpr ⟨p, hp, rfl⟩)

/-- C7: on a non-empty list of (well-formed) trades the aggregator returns
`totalVolume = Σ size·price`; `winRate = wins / trades` with a win exactly a
SELL above 0.5 or a BUY below 0.5; `marketConcentration` = (max per-market
volume, grouping by market and summing `size·price`) / `totalVolume`; and
`avgTimingHours` = the mean elapsed time since each trade in hours, capped
at 168. -/
theorem C7_analyze_nonempty (now : ℚ) (trades : List PolymarketTrade)
    (hne : trades ≠ [])
    (hvalid : ∀ t ∈ trades, 0 ≤ t.size ∧ 0 ≤ t.price) :
    (analyzeWalletTrades now trades).totalVolume =
      ((trades.map (fun t => t.size * t.price)).sum) ∧
    (analyzeWalletTrades now trades).winRate =
      (trades.countP isWin : ℚ) / (trades.length : ℚ) ∧
    (analyzeWalletTrades now trades).marketConcentration =
      listMax ((trades.map PolymarketTrade.conditionId).map (marketVolume trades)) /
        ((trades.map (fun t => t.size * t.price)).sum) ∧
    (analyzeWalletTrades now trades).avgTimingHours =
      min 168 ((((trades.map (fun t => now - t.timestamp * 1000)).sum) /
        (trades.length : ℚ)) / (1000 * 60 * 60)) := by
  have hS := (analyzeLoop_snd trades [] 0 0).1
  rw [zero_add] at hS
  have hW := (analyzeLoop_snd trades [] 0 0).2
  rw [Nat.zero_add] at hW
  have hlen : 0 < trades.length := List.length_pos.mpr hne
  have hTV : (analyzeWalletTrades now trades).totalVolume =
      (analyzeLoop trades ([], 0, 0)).2.1 := by
    cases trades with
    | nil => exact absurd rfl hne
    | cons t ts => rfl
  have hWR : (analyzeWalletTrades now trades).winRate =
      (if 0 < trades.length then
        (((analyzeLoop trades ([], 0, 0)).2.2 : ℕ) : ℚ) / (trades.length : ℚ) else 0) := by
    cases trades with
    | nil => exact absurd rfl hne
    | cons t ts => rfl
  have hMC : (analyzeWalletTrades now trades).marketConcentration =
      (if (analyzeLoop trades ([], 0, 0)).2.1 > 0 then
        listMax ((analyzeLoop trades ([], 0, 0)).1.map Prod.snd) /
          (analyzeLoop trades ([], 0, 0)).2.1
       else 0) := by
    cases trades with
    | nil => exact absurd rfl hne
    | cons t ts => rfl
  have hAT : (analyzeWalletTrades now trades).avgTimingHours =
      min 168 ((((trades.map (fun t => now - t.timestamp * 1000)).sum) /
        (trades.length : ℚ)) / (1000 * 60 * 60)) := by
    cases trades with
    | nil => exact absurd rfl hne
    | cons t ts => rfl
  refine ⟨by rw [hTV, hS], by rw [hWR, if_pos hlen, hW], ?_, hAT⟩
  rw [hMC, analyze_maxVolumes trades hne, hS]
  by_cases hpos : ((trades.map (fun t => t.size * t.price)).sum) > 0
  · rw [if_pos hpos]
  · have hge : 0 ≤ ((trades.map (fun t => t.size * t.price)).sum) := by
      apply List.sum_nonneg
      intro x hx
      obtain ⟨t, ht, rfl⟩ := List.mem_map.mp hx
      exact mul_nonneg (hvalid t ht).1 (hvalid t ht).2
    have h0 : ((trades.map (fun t => t.size * t.price)).sum) = 0 := le_antisymm (not_lt.mp hpos) hge
    rw [if_neg hpos, h0, div_zero]

/-- C7 witness: two trades by one wallet across two markets, instantiated
with concrete integer prices and sizes. -/
theorem C7_analyze_nonempty_witness :
    ([⟨"0xa", TradeSide.BUY, "m1", 100, 1, 0⟩,
      ⟨"0xa", TradeSide.SELL, "m2", 50, 1, 0⟩] : List PolymarketTrade) ≠ [] ∧
    (analyzeWalletTrades 3600000
        [⟨"0xa", TradeSide.BUY, "m1", 100, 1, 0⟩,
         ⟨"0xa", TradeSide.SELL, "m2", 50, 1, 0⟩]).totalVolume =
      ((([⟨"0xa", TradeSide.BUY, "m1", 100, 1, 0⟩,
          ⟨"0xa", TradeSide.SELL, "m2", 50, 1, 0⟩] : List PolymarketTrade).map
        (fun t => t.size * t.price)).sum) :=
  ⟨by simp,
   (C7_analyze_nonempty 3600000
      [⟨"0xa", TradeSide.BUY, "m1", 100, 1, 0⟩,
       ⟨"0xa", TradeSide.SELL, "m2", 50, 1, 0⟩]
      (by simp) (by intro t ht; fin_cases ht <;> norm_num)).1⟩

/-! ## Wallet admission (`polymarket-storage.ts`, `analyzeWalletsFromTrades`) -/

/-- JS `Math.round`: half-up. -/
def jsRound (x : ℚ) : ℚ := ((⌊x + 1/2⌋ : ℤ) : ℚ)

/-- The cached `Wallet` record (the random UUID and the null `notes` field
carry no logic and are omitted). -/
structure Wallet where
  address : String
  riskScore : ℚ
  winRate : ℚ
  totalBets : ℕ
  totalVolume : ℚ
  currentPositionValue : ℚ
  accountAgeDays : ℚ
  portfolioConcentration : ℚ
  avgTimingProximity : ℚ
  isFlagged : Bool
deriving DecidableEq, Repr

/-- The `for (const trade of trades)` grouping loop: skip falsy wallets,
append each trade to its wallet's list. -/
def groupTradesByWallet : List PolymarketTrade →
    List (String × List PolymarketTrade) → List (String × List PolymarketTrade)
  | [], acc => acc
  | t :: rest, acc =>
    if t.proxyWallet = "" then groupTradesByWallet rest acc
    else groupTradesByWallet rest
      (mapSet acc t.proxyWallet (mapGetD acc t.proxyWallet [] ++ [t]))

/-- The per-wallet loop body of `analyzeWalletsFromTrades`: analyze the
wallet's trades, estimate the account age from the oldest trade, compute
the risk score, and admit the wallet only when `riskScore >= 20` or
`totalVolume > 1000`. -/
def walletStep (now : ℚ) (acc : List Wallet)
    (entry : String × List PolymarketTrade) : List Wallet :=
  let analysis := analyzeWalletTrades now entry.2
  let oldestTrade := listMin (entry.2.map PolymarketTrade.timestamp)
  let accountAgeDays : ℚ := max 1 ((⌊(now / 1000 - oldestTrade) / 86400⌋ : ℤ) : ℚ)
  let walletMetrics : PartialWalletMetrics :=
    { accountAgeDays := some accountAgeDays
      winRate := some analysis.winRate
      portfolioConcentration := some analysis.marketConcentration
      avgTimingProximity := some (jsRound analysis.avgTimingHours)
      totalVolume := some analysis.totalVolume }
  let riskScore := calculateRiskScore walletMetrics
  if riskScore ≥ 20 ∨ analysis.totalVolume > 1000 then
    acc ++ [{ address := entry.1
              riskScore := riskScore
              winRate := analysis.winRate
              totalBets := analysis.totalBets
              totalVolume := analysis.totalVolume
              currentPositionValue := 0
              accountAgeDays := accountAgeDays
              portfolioConcentration := analysis.marketConcentration
              avgTimingProximity := jsRound analysis.avgTimingHours
              isFlagged := shouldFlagWallet riskScore }]
  else acc

/-- `analyzeWalletsFromTrades`: group by wallet, then run the admission
loop over the groups; the result is the new wallet cache contents. -/
def analyzeWalletsFromTrades (now : ℚ) (trades : List PolymarketTrade) : List Wallet :=
  (groupTradesByWallet trades []).foldl (walletStep now) []

lemma walletStep_invariant (now : ℚ) (groups : List (String × List PolymarketTrade))
    (acc : List Wallet)
    (hacc : ∀ w ∈ acc, 20 ≤ w.riskScore ∨ w.totalVolume > 1000) :
    ∀ w ∈ groups.foldl (walletStep now) acc, 20 ≤ w.riskScore ∨ w.totalVolume > 1000 := by
  induction groups generalizing acc with
  | nil => exact hacc
  | cons g gs ih =>
    rw [List.foldl_cons]
    apply ih
    intro w hw
    unfold walletStep at hw
    by_cases hadm : calculateRiskScore
        { accountAgeDays := some (max 1 ((⌊(now / 1000 -
            listMin (g.2.map PolymarketTrade.timestamp)) / 86400⌋ : ℤ) : ℚ))
          winRate := some (analyzeWalletTrades now g.2).winRate
          portfolioConcentration := some (analyzeWalletTrades now g.2).marketConcentration
          avgTimingProximity := some (jsRound (analyzeWalletTrades now g.2).avgTimingHours)
          totalVolume := some (analyzeWalletTrades now g.2).totalVolume } ≥ 20 ∨
        (analyzeWalletTrades now g.2).totalVolume > 1000
    · rw [if_pos hadm] at hw
      rcases List.mem_append.mp hw with hin | hsing
      · exact hacc w hin
      · rw [List.mem_singleton.mp hsing]
        exact hadm
    · rw [if_neg hadm] at hw
      exact hacc w hw

/-! ## Claim C10 -/

/-- C10: after a refresh, every wallet admitted to the cache by
`analyzeWalletsFromTrades` satisfies `riskScore ≥ 20` or
`totalVolume > 1000`; wallets meeting neither are silently dropped. -/
theorem C10_admission_filter (now : ℚ) (trades : List PolymarketTrade)
    (w : Wallet) (hw : w ∈ analyzeWalletsFromTrades now trades) :
    20 ≤ w.riskScore ∨ w.totalVolume > 1000 :=
  walletStep_invariant now (groupTradesByWallet trades []) []
    (by intro w hw; cases hw) w hw

lemma analyzeWallets_eval :
    analyzeWalletsFromTrades 0 [⟨"0xa", TradeSide.BUY, "m", 2000, 1, 0⟩] =
      [{ address := "0xa", riskScore := 68, winRate := 0, totalBets := 1,
         totalVolume := 2000, currentPositionValue := 0, accountAgeDays := 1,
         portfolioConcentration := 1, avgTimingProximity := 0, isFlagged := true }] := by
  have hne : ¬ ("0xa" : String) = "" := by decide
  have hside : ¬ TradeSide.BUY = TradeSide.SELL := by decide
  norm_num [hside,analyzeWalletsFromTrades, groupTradesByWallet, walletStep, mapSet, mapGetD,
    analyzeWalletTrades, analyzeLoop, isWin, listMax, listMin, jsRound,
    calculateRiskScore, calculateAccountAgeScore_eq, calculateWinRateScore_eq,
    calculateConcentrationScore_eq, calculateTimingScore_eq,
    calculatePositionSizeScore_eq, shouldFlagWallet, RISK_THRESHOLDS, hne]

/-- C10 witness: a single 2000-USD BUY admits its wallet, and that wallet
satisfies the cache invariant. -/
theorem C10_admission_filter_witness :
    20 ≤ ({ address := "0xa", riskScore := 68, winRate := 0, totalBets := 1,
            totalVolume := 2000, currentPositionValue := 0, accountAgeDays := 1,
            portfolioConcentration := 1, avgTimingProximity := 0,
            isFlagged := true } : Wallet).riskScore ∨
    ({ address := "0xa", riskScore := 68, winRate := 0, totalBets := 1,
       totalVolume := 2000, currentPositionValue := 0, accountAgeDays := 1,
       portfolioConcentration := 1, avgTimingProximity := 0,
       isFlagged := true } : Wallet).totalVolume > 1000 :=
  C10_admission_filter 0 [⟨"0xa", TradeSide.BUY, "m", 2000, 1, 0⟩] _
    (by rw [analyzeWallets_eval]; exact List.mem_singleton.mpr rfl)

/-! ## Fetch-client cache (`polymarket-client.ts`, `getMarkets`) -/

/-- `CacheEntry<T>`. -/
structure CacheEntry (α : Type) where
  data : α
  timestamp : ℚ
deriving DecidableEq, Repr

/-- `CACHE_TTL = 5 * 60 * 1000` ms. -/
def CACHE_TTL : ℚ := 5 * 60 * 1000

/-- `isCacheValid`. -/
def isCacheValid {α : Type} (now : ℚ) (cache : Option (CacheEntry α)) : Bool :=
  match cache with
  | none => false
  | some c => decide (now - c.timestamp < CACHE_TTL)

/-- `getMarkets`, with the HTTP GET's outcome passed in
(`Except.error` covers both a network failure and a non-2xx response, which
the source turns into a thrown error). Returns the call's result and the
cache state afterwards. On a hit the fetch outcome is never consulted — no
network call happens. -/
def getMarkets {α : Type} (now : ℚ) (fetchResult : Except Unit α)
    (marketsCache : Option (CacheEntry α)) :
    Except Unit α × Option (CacheEntry α) :=
  match marketsCache with
  | some c =>
    if now - c.timestamp < CACHE_TTL then
      (Except.ok c.data, some c)
    else
      match fetchResult with
      | Except.ok markets => (Except.ok markets, some ⟨markets, now⟩)
      | Except.error _ => (Except.ok c.data, some c)
  | none =>
    match fetchResult with
    | Except.ok markets => (Except.ok markets, some ⟨markets, now⟩)
    | Except.error e => (Except.error e, none)

/-! ## Refresh coordinator (`polymarket-storage.ts`, `refreshData`) -/

/-- `DATA_REFRESH_INTERVAL = 5 * 60 * 1000` ms. -/
def DATA_REFRESH_INTERVAL : ℚ := 5 * 60 * 1000

/-- The coordinator's state: the `isRefreshing` re-entrancy flag, the
`lastDataRefresh` timestamp, the local `now` captured by the in-flight
`refreshData` call (`refreshStartedAt`), and the cache contents
(abstracted wholesale as `cache : α`). -/
structure RefreshState (α : Type) where
  isRefreshing : Bool
  lastDataRefresh : ℚ
  refreshStartedAt : ℚ
  cache : α
deriving DecidableEq, Repr

/-- Events of one `refreshData` cycle: a request arriving at wall-clock
`now`, or the in-flight fetch completing at wall-clock `now` with the new
cache contents on success, `none` on failure. -/
inductive RefreshEvent (α : Type) where
  | request (now : ℚ)
  | complete (now : ℚ) (result : Option α)

/-- One transition of `refreshData`. On `request`: dropped while a refresh
is in flight; a no-op while the data is fresh; otherwise the flag is raised
and the call's `now` captured. On `complete`: the flag is cleared; on
success the cache is replaced and `lastDataRefresh` is set to the *captured
start* `now` (the source writes the `now` taken before its awaits — the
completion clock is never read, which is why the `complete` event's `now`
is unused here); on failure nothing else changes. -/
def refreshStep {α : Type} (s : RefreshState α) : RefreshEvent α → RefreshState α
  | RefreshEvent.request now =>
    if s.isRefreshing then s
    else if now - s.lastDataRefresh < DATA_REFRESH_INTERVAL then s
    else { s with isRefreshing := true, refreshStartedAt := now }
  | RefreshEvent.complete _ result =>
    match result with
    | some newCache =>
      { s with cache := newCache
               lastDataRefresh := s.refreshStartedAt
               isRefreshing := false }
    | none => { s with isRefreshing := false }

/-! ## Claim C8 -/

/-- C8 counterexample: admit a refresh at t=300000 and complete it
successfully at t=300123; the stored `lastDataRefresh` is the admission
time 300000, not the completion time 300123 as the claim states. -/
theorem C8_refresh_counterexample :
    (refreshStep (refreshStep (⟨false, 0, 0, (0 : ℕ)⟩ : RefreshState ℕ)
        (RefreshEvent.request 300000))
      (RefreshEvent.complete 300123 (some 1))).lastDataRefresh = 300000 ∧
    (refreshStep (refreshStep (⟨false, 0, 0, (0 : ℕ)⟩ : RefreshState ℕ)
        (RefreshEvent.request 300000))
      (RefreshEvent.complete 300123 (some 1))).lastDataRefresh ≠ 300123 := by
  norm_num [refreshStep, DATA_REFRESH_INTERVAL]

/-- C8 amended: a refresh request is dropped (state unchanged) while a
refresh is in flight, is a no-op while `now - lastDataRefresh < 5 min`, and
otherwise raises the flag capturing the admission time; on completion the
flag always returns to idle; on failure neither `lastDataRefresh` nor the
cache changes (so the next read retries immediately); on success
`lastDataRefresh` is set to the *admission* time of the refresh (the `now`
captured at its start — not the completion time). -/
theorem C8_refresh_coordinator {α : Type} (s : RefreshState α) (now t : ℚ) (d : α) :
    (s.isRefreshing = true → refreshStep s (RefreshEvent.request now) = s) ∧
    (now - s.lastDataRefresh < DATA_REFRESH_INTERVAL →
      refreshStep s (RefreshEvent.request now) = s) ∧
    (s.isRefreshing = false → ¬(now - s.lastDataRefresh < DATA_REFRESH_INTERVAL) →
      refreshStep s (RefreshEvent.request now) =
        { s with isRefreshing := true, refreshStartedAt := now }) ∧
    ((refreshStep s (RefreshEvent.complete t (some d))).isRefreshing = false) ∧
    ((refreshStep s (RefreshEvent.complete t none)).isRefreshing = false) ∧
    ((refreshStep s (RefreshEvent.complete t none)).lastDataRefresh = s.lastDataRefresh ∧
     (refreshStep s (RefreshEvent.complete t none)).cache = s.cache) ∧
    ((refreshStep s (RefreshEvent.complete t (some d))).lastDataRefresh =
      s.refreshStartedAt ∧
     (refreshStep s (RefreshEvent.complete t (some d))).cache = d) := by
  refine ⟨fun h => ?_, fun h => ?_, fun h1 h2 => ?_, rfl, rfl, ⟨rfl, rfl⟩, rfl, rfl⟩
  · simp [refreshStep, h]
  · by_cases hb : s.isRefreshing <;> simp [refreshStep, hb, h]
  · simp [refreshStep, h1, h2]

/-- C8 witness: a request arriving while a refresh is in flight is dropped
without touching the state. -/
theorem C8_refresh_coordinator_witness :
    refreshStep (⟨true, 0, 0, (0 : ℕ)⟩ : RefreshState ℕ) (RefreshEvent.request 999999) =
      (⟨true, 0, 0, (0 : ℕ)⟩ : RefreshState ℕ) :=
  (C8_refresh_coordinator (⟨true, 0, 0, (0 : ℕ)⟩ : RefreshState ℕ) 999999 0 0).1 rfl

/-! ## Claim C9 -/

/-- C9: a `getMarkets` call within the TTL returns the cached data with the
cache unchanged (and never consults the network); on a miss with a
successful fetch the cache entry is overwritten with the fetched data and
the fetch timestamp; on a miss with a failed fetch the last cached value is
returned with the cache unchanged even if stale; the error propagates only
when no cached value exists. -/
theorem C9_getMarkets_cache {α : Type} (now : ℚ) (c : CacheEntry α) (d : α)
    (e : Unit) (fr : Except Unit α) :
    (now - c.timestamp < CACHE_TTL →
      getMarkets now fr (some c) = (Except.ok c.data, some c)) ∧
    (isCacheValid now (some c) = false → getMarkets now (Except.ok d) (some c) =
      (Except.ok d, some ⟨d, now⟩)) ∧
    (getMarkets now (Except.ok d) (none : Option (CacheEntry α)) =
      (Except.ok d, some ⟨d, now⟩)) ∧
    (¬(now - c.timestamp < CACHE_TTL) → getMarkets now (Except.error e) (some c) =
      (Except.ok c.data, some c)) ∧
    (getMarkets now (Except.error e) (none : Option (CacheEntry α)) =
      (Except.error e, none)) := by
  refine ⟨fun h => ?_, fun h => ?_, rfl, fun h => ?_, rfl⟩
  · simp [getMarkets, h]
  · simp only [isCacheValid, decide_eq_false_iff_not] at h
    simp [getMarkets, h]
  · simp [getMarkets, h]

/-- C9 witness: a read at t=1000 against an entry fetched at t=0 is a cache
hit returning the cached data with the cache unchanged. -/
theorem C9_getMarkets_cache_witness :
    getMarkets 1000 (Except.ok (9 : ℚ)) (some (⟨7, 0⟩ : CacheEntry ℚ)) =
      (Except.ok (7 : ℚ), some (⟨7, 0⟩ : CacheEntry ℚ)) :=
  (C9_getMarkets_cache 1000 (⟨7, 0⟩ : CacheEntry ℚ) 9 () (Except.ok 9)).1
    (by norm_num [CACHE_TTL])

end PolymarketTrading
